import Mathlib

/-!
Shallow embedding of the `annoj/cyberdb` RSS scraper
(`src/main.py`, `src/rssscraper/rssscraper.py`, `src/rssscraper/db.py`)
and proofs about the specified properties of its pipeline.

The pipeline: per-feed pollers (`RssScraper`) fetch a feed, deduplicate
items by a sha256 content hash, run configured regex patterns over the raw
item text, and hand matched items to a persistence layer (`SqlLiteDB` in
`db.py`) that applies insert-if-absent writes to four tables.
-/

/-- A compiled regex pattern as the scraper holds it: its textual form
(`pattern.pattern` in Python) together with the behaviour of the external
regex engine on a text (`pattern.findall`).  Regex semantics are delegated
verbatim to the engine, so the engine is a function parameter of the model. -/
structure RePattern where
  pattern : String
  findall : String → List String

/-- `RssScraper.patternMatch` (rssscraper.py lines 179-182): one pattern
together with the non-empty list of substrings it matched. -/
structure PatternMatch where
  pattern : RePattern
  matchList : List String

/-- The JSON value found under a field name of a parsed item: either a
single object (a dict whose text, if any, sits under the key dollar-sign)
or a list of such objects (only `category` uses the list form). -/
inductive CategoryVal where
  | single (dollar : Option String)
  | multi (entries : List (Option String))
deriving DecidableEq

/-- The semi-structured field map of one feed item, as read by
`RssScraper.__process_item` from `json.loads(item.json())['item']`
(rssscraper.py lines 230-243).  The outer `Option` is presence of the
field name in the map; the inner `Option` is presence of the text key
(dollar-sign) in the field object. -/
structure ParsedItem where
  title : Option (Option String) := none
  link : Option (Option String) := none
  description : Option (Option String) := none
  author : Option (Option String) := none
  category : Option CategoryVal := none
  comments : Option (Option String) := none
  enclosure : Option (Option String) := none
  guid : Option (Option String) := none
  pubDate : Option (Option String) := none
  source : Option (Option String) := none
deriving DecidableEq

/-- One `<item>` node as the scraper consumes it: its raw text
(`item.text`) and its parsed field map (`json.loads(item.json())['item']`). -/
structure FeedItemNode where
  text : String
  fields : ParsedItem

/-- The `RssItem` dataclass (rssscraper.py lines 162-174), which is also
the row shape of the `rss_items` table.  All columns are nullable VARCHAR
except that the code always passes a string for `category` (it applies
`str(...)` unconditionally), which the model records as `some`. -/
structure RssItem where
  sha256 : String
  title : Option String
  link : Option String
  description : Option String
  author : Option String
  category : Option String
  comments : Option String
  enclosure : Option String
  guid : Option String
  pub_date : Option String
  source : Option String
deriving DecidableEq

/-- The field access `(parsed_item.get(name, {}).get(dollar)) or None`
used for every non-category field: the field object's text if the field
is present and its text is present and truthy (a Python empty string is
falsy and becomes `None`), else `None`. -/
def getDollarOrNone : Option (Option String) → Option String
  | none => none
  | some none => none
  | some (some s) => if s = "" then none else some s

/-- Result type of `RssScraper.__parse_item_category`: Python `None`, a
single string, or a list of optional strings. -/
inductive CategoryParsed where
  | pynone
  | pystr (s : String)
  | pylist (entries : List (Option String))
deriving DecidableEq

/-- `RssScraper.__parse_item_category` (rssscraper.py lines 199-207):
`None` for a missing or falsy category (including the empty list), the
element-wise text extraction for a list, and `category.get(dollar) or
None` for a single object. -/
def parse_item_category : Option CategoryVal → CategoryParsed
  | none => .pynone
  | some (.multi []) => .pynone
  | some (.multi (e :: es)) => .pylist (e :: es)
  | some (.single none) => .pynone
  | some (.single (some s)) => if s = "" then .pynone else .pystr s

/-- The quote character used by the Python `repr` of a string. -/
def pyQuote : Char := Char.ofNat 39

/-- Python `str` of one optional string inside a list `repr`. -/
def pyReprOptStr : Option String → String
  | none => "None"
  | some s => String.singleton pyQuote ++ s ++ String.singleton pyQuote

/-- Python `str(...)` applied to the result of `__parse_item_category`:
`str(None)` is the four-character string `None`, a string is itself, and
a list renders as its bracketed `repr`. -/
def pyStrCategory : CategoryParsed → String
  | .pynone => "None"
  | .pystr s => s
  | .pylist es => "[" ++ String.intercalate ", " (es.map pyReprOptStr) ++ "]"

/-- Construction of the `RssItem` in `RssScraper.__process_item`
(rssscraper.py lines 229-243): every non-category field goes through
`getDollarOrNone`; `category` is always `str(__parse_item_category ...)`. -/
def mkRssItem (sha256 : String) (pi : ParsedItem) : RssItem where
  sha256 := sha256
  title := getDollarOrNone pi.title
  link := getDollarOrNone pi.link
  description := getDollarOrNone pi.description
  author := getDollarOrNone pi.author
  category := some (pyStrCategory (parse_item_category pi.category))
  comments := getDollarOrNone pi.comments
  enclosure := getDollarOrNone pi.enclosure
  guid := getDollarOrNone pi.guid
  pub_date := getDollarOrNone pi.pubDate
  source := getDollarOrNone pi.source

/-- Outcome of `RssScraper.__process_item` on one item: the seen-set
after the call, the argument of the `commit_rss_item_and_matches` call on
the scraper's db object if one is made (`none` means the method returned
without calling it), and how many patterns had `findall` run over the
item's text. -/
structure ProcessResult where
  seen : List String
  emit : Option (RssItem × List PatternMatch)
  findallRuns : Nat
deriving Inhabited

/-- `RssScraper.__process_item` (rssscraper.py lines 209-251), with the
sha256 hex digest as a function parameter.  Steps, in source order: hash
the raw text; return if the hash was already seen; add the hash to the
seen-set; run every pattern's `findall`, keeping patterns with at least
one match; return if no pattern matched; build the `RssItem` from the
field map; call `commit_rss_item_and_matches` on the db object. -/
def process_item (sha256hex : String → String) (patterns : List RePattern)
    (seen : List String) (it : FeedItemNode) : ProcessResult :=
  let h := sha256hex it.text
  if h ∈ seen then
    { seen := seen, emit := none, findallRuns := 0 }
  else
    let seen1 := h :: seen
    let pattern_matches := patterns.filterMap fun p =>
      let m := p.findall it.text
      if m.isEmpty then none else some { pattern := p, matchList := m }
    if pattern_matches.isEmpty then
      { seen := seen1, emit := none, findallRuns := patterns.length }
    else
      { seen := seen1
        emit := some (mkRssItem h it.fields, pattern_matches)
        findallRuns := patterns.length }

/-- A row of the `evidence` table (db.py lines 92-103): an autoincrement
integer id plus the three VARCHAR columns of the triple.  The `match` and
`pattern` columns are named `matchVal` and `patternVal` here. -/
structure EvidenceRow where
  id : Nat
  rss_item_sha256 : String
  matchVal : String
  patternVal : String
deriving DecidableEq

/-- Whether an evidence row carries exactly the given triple, as tested by
the `WHERE rss_item_sha256 = ... AND match = ... AND pattern = ...`
sub-query of the evidence insert (db.py lines 160-167). -/
def tripleEq (r : EvidenceRow) (sha m pat : String) : Bool :=
  r.rss_item_sha256 == sha && r.matchVal == m && r.patternVal == pat

/-- The state of the SQLite database behind `SqlLiteDB` (db.py): the four
tables, with tables as insertion-ordered lists of rows, plus the
AUTOINCREMENT counter of the `evidence` table. -/
structure DBState where
  rss_items : List RssItem
  patternsTbl : List String
  matchesTbl : List String
  evidence : List EvidenceRow
  nextEvidenceId : Nat
deriving DecidableEq

/-- The freshly created database: four empty tables; SQLite AUTOINCREMENT
hands out 1 first. -/
def emptyDB : DBState :=
  { rss_items := [], patternsTbl := [], matchesTbl := [], evidence := [], nextEvidenceId := 1 }

/-- Whether an `rss_items` row with the given primary key exists. -/
def hasRssItem (db : DBState) (sha : String) : Bool :=
  db.rss_items.any (·.sha256 == sha)

/-- `INSERT OR IGNORE INTO rss_items VALUES (...)` (db.py lines 106-125):
the row is appended unless a row with the same `sha256` primary key
already exists, in which case nothing changes. -/
def insert_rss_item_if_not_exists (db : DBState) (row : RssItem) : DBState :=
  if hasRssItem db row.sha256 then db
  else { db with rss_items := db.rss_items ++ [row] }

/-- Whether a `patterns` row with the given primary key exists. -/
def hasPatternText (db : DBState) (p : String) : Bool :=
  db.patternsTbl.any (· == p)

/-- Whether a `matches` row with the given primary key exists. -/
def hasMatchText (db : DBState) (m : String) : Bool :=
  db.matchesTbl.any (· == m)

/-- `INSERT OR IGNORE INTO patterns VALUES (:pattern)` (db.py lines
128-137), keyed on the `regex` primary key. -/
def insert_pattern_if_not_exists (db : DBState) (p : String) : DBState :=
  if hasPatternText db p then db
  else { db with patternsTbl := db.patternsTbl ++ [p] }

/-- `INSERT OR IGNORE INTO matches VALUES (:match)` (db.py lines 139-148),
keyed on the `match` primary key. -/
def insert_match_if_not_exists (db : DBState) (m : String) : DBState :=
  if hasMatchText db m then db
  else { db with matchesTbl := db.matchesTbl ++ [m] }

/-- Whether the evidence table holds a row with the given triple. -/
def hasTriple (db : DBState) (sha m pat : String) : Bool :=
  db.evidence.any (tripleEq · sha m pat)

/-- The guarded evidence insert `INSERT INTO evidence (...) SELECT ...
WHERE NOT EXISTS (SELECT 1 FROM evidence WHERE ...)` (db.py lines
150-169): append a fresh row with the next autoincrement id unless a row
with the same triple already exists. -/
def insert_evidence_if_not_exists (db : DBState) (sha m pat : String) : DBState :=
  if hasTriple db sha m pat then db
  else
    { db with
      evidence := db.evidence ++ [⟨db.nextEvidenceId, sha, m, pat⟩]
      nextEvidenceId := db.nextEvidenceId + 1 }

/-- The body of the per-`match` loop of `SqlLiteDB.__commit_rss_item_and_matches`
(db.py lines 127-176): insert the pattern text, then `executemany` the
match-value inserts over `match.matches`, then `executemany` the guarded
evidence inserts over `match.matches`. -/
def commitPatternMatch (db : DBState) (sha : String) (pm : PatternMatch) : DBState :=
  let db1 := insert_pattern_if_not_exists db pm.pattern.pattern
  let db2 := pm.matchList.foldl insert_match_if_not_exists db1
  pm.matchList.foldl (fun d m => insert_evidence_if_not_exists d sha m pm.pattern.pattern) db2

/-- `SqlLiteDB.__commit_rss_item_and_matches` (db.py lines 105-178): the
rss item insert followed by the per-`match` loop, all committed as one
unit. -/
def commit_rss_item_and_matches (db : DBState) (item : RssItem)
    (ms : List PatternMatch) : DBState :=
  ms.foldl (fun d pm => commitPatternMatch d item.sha256 pm)
    (insert_rss_item_if_not_exists db item)

/-- Number of evidence rows carrying a given triple. -/
def countTriple (db : DBState) (sha m pat : String) : Nat :=
  (db.evidence.filter (tripleEq · sha m pat)).length

/-- No two rows of the evidence table carry the same triple. -/
def NoDupTriples (db : DBState) : Prop :=
  db.evidence.Pairwise fun a b => tripleEq a b.rss_item_sha256 b.matchVal b.patternVal = false

/-- Database states reachable through the Store interface: the freshly
created database, plus anything obtained by a consumer commit. -/
inductive DBReachable : DBState → Prop where
  | init : DBReachable emptyDB
  | commit (db : DBState) (item : RssItem) (ms : List PatternMatch) :
      DBReachable db → DBReachable (commit_rss_item_and_matches db item ms)

/-- The constraints declared by `CREATE TABLE ... evidence (id INTEGER
PRIMARY KEY AUTOINCREMENT, rss_item_sha256 VARCHAR, match VARCHAR,
pattern VARCHAR)` (db.py lines 92-103): the only key is the integer
primary key `id`, so a list of rows satisfies the schema exactly when the
ids are pairwise distinct. -/
def evidence_schema_admits : List EvidenceRow → Bool
  | [] => true
  | r :: rs => !(rs.any fun x => x.id == r.id) && evidence_schema_admits rs

/-- Pairwise distinctness of the evidence triples, as a check on a bare
row list (used to express what a uniqueness constraint on the triple
would enforce). -/
def rows_triples_distinct : List EvidenceRow → Bool
  | [] => true
  | r :: rs =>
    !(rs.any fun x => tripleEq x r.rss_item_sha256 r.matchVal r.patternVal)
      && rows_triples_distinct rs

/-- The loop guard of `SqlLiteDB.start_listen_for_results` (db.py line
185): `while not (self.__is_cancelled and self.__result_queue.empty())`. -/
def loopGuard (isCancelled queueEmpty : Bool) : Bool :=
  !(isCancelled && queueEmpty)

/-- The consumer loop of `start_listen_for_results` (db.py lines 184-191)
after the cancellation signal has been observed (`__is_cancelled` is
true): while the guard holds the queue is non-empty, so `await get()`
returns the head immediately, which is committed before the guard is
re-checked; the loop exits when the queue is empty.  Returns the final
database together with the entries committed, in order. -/
def start_listen_drain :
    List (RssItem × List PatternMatch) → DBState →
      DBState × List (RssItem × List PatternMatch)
  | [], db => (db, [])
  | e :: q, db =>
    let r := start_listen_drain q (commit_rss_item_and_matches db e.1 e.2)
    (r.1, e :: r.2)

/-- Outcome of one poll cycle's fetch: a parsed document with its item
nodes, or a raised error (a transport error from `get` or a non-success
status from `raise_for_status`). -/
inductive FetchResult where
  | ok (items : List FeedItemNode)
  | failure

/-- The external events of one iteration of `RssScraper.run`: what the
fetch produces, and whether `stop()` clears the running flag during the
`asyncio.sleep` of that iteration. -/
structure CycleIn where
  fetch : FetchResult
  stopDuringWait : Bool

/-- How an observed run of a poller ended: still running (observation
window exhausted), stopped via the running flag, or terminated by a
propagated exception. -/
inductive RunOutcome where
  | running
  | stopped
  | errored
deriving DecidableEq

/-- Observable result of a poller's `run` over a window of cycles: number
of fetches performed, how the loop ended, whether `__xml_session.close()`
ran, the dedup set, and the sequence of commit-call arguments produced. -/
structure RunResult where
  fetches : Nat
  outcome : RunOutcome
  sessionClosed : Bool
  seen : List String
  emits : List (RssItem × List PatternMatch)

/-- `RssScraper.run` (rssscraper.py lines 253-272) from an intermediate
state: each iteration fetches (counting the fetch), propagates a fetch
failure out of the loop — skipping `close()` — or processes the items in
document order and sleeps; if `stop()` ran during the sleep the `while`
re-check exits the loop and `close()` runs. -/
def runFrom (sha256hex : String → String) (patterns : List RePattern)
    (seen : List String) (emits : List (RssItem × List PatternMatch))
    (fetches : Nat) : List CycleIn → RunResult
  | [] =>
    { fetches := fetches, outcome := .running, sessionClosed := false
      seen := seen, emits := emits }
  | c :: rest =>
    match c.fetch with
    | .failure =>
      { fetches := fetches + 1, outcome := .errored, sessionClosed := false
        seen := seen, emits := emits }
    | .ok items =>
      let step := items.foldl (fun acc it =>
        let r := process_item sha256hex patterns acc.1 it
        (r.seen, acc.2 ++ r.emit.toList)) (seen, emits)
      if c.stopDuringWait then
        { fetches := fetches + 1, outcome := .stopped, sessionClosed := true
          seen := step.1, emits := step.2 }
      else runFrom sha256hex patterns step.1 step.2 (fetches + 1) rest

/-- `RssScraper.run` from the initial state of a fresh scraper. -/
def run (sha256hex : String → String) (patterns : List RePattern)
    (cycles : List CycleIn) : RunResult :=
  runFrom sha256hex patterns [] [] 0 cycles

/-- The method `RssScraper.__process_item` invokes on the object it was
given as `db` when at least one pattern matched (rssscraper.py line 251). -/
def process_item_db_method : String := "commit_rss_item_and_matches"

/-- The public methods of `asyncio.Queue`, the object `main` passes to
each scraper as `db` (`RssScraper(url, sqlite_db.result_queue, ...)`,
main.py line 44).  The Result Channel's non-blocking send is `put_nowait`. -/
def asyncio_queue_methods : List String :=
  ["empty", "full", "qsize", "put", "put_nowait", "get", "get_nowait",
   "task_done", "join"]

/-- `RssScraper.add_pattern` (rssscraper.py lines 196-197): append the
compiled pattern (represented by its text) to the scraper's pattern list. -/
def add_pattern (pats : List String) (p : String) : List String := pats ++ [p]

/-- The pattern list shared by every scraper after `main`'s startup loop
(main.py lines 42-47).  `RssScraper.__init__` declares `patterns=[]`, a
mutable default argument: every scraper constructed without an explicit
`patterns` argument stores a reference to the one default list object, so
each scraper's `add_pattern` calls append to that single shared list.
The model threads the one shared list through the whole startup loop:
for each configured URL, every configured pattern is appended once. -/
def main_startup_shared_patterns (urls patterns_cfg : List String) : List String :=
  urls.foldl (fun acc _ => patterns_cfg.foldl add_pattern acc) []

/-- The pattern sequence scraper number `i` observes after startup: all
scrapers alias the same default-argument list, so every index sees the
final shared list. -/
def scraper_patterns_view (urls patterns_cfg : List String) (_i : Nat) : List String :=
  main_startup_shared_patterns urls patterns_cfg

/-- Observable outcome of `main` (main.py lines 21-60) as far as startup
is concerned: whether the config-load error message was printed, `main`'s
return value (`none` while it blocks in `run_forever`), and whether the
consumer task and the poller tasks were created. -/
structure MainResult where
  printedConfigError : Bool
  returnValue : Option Nat
  consumerStarted : Bool
  pollersStarted : Bool
deriving DecidableEq

/-- `main` (main.py lines 21-60): if loading the config file raises, the
error message is printed to stderr and `main` returns 1 before the
database, the consumer task or any scraper task is created; otherwise all
tasks start and `main` blocks in `run_forever`. -/
def main_run (configLoadOk : Bool) : MainResult :=
  if configLoadOk then
    { printedConfigError := false, returnValue := none
      consumerStarted := true, pollersStarted := true }
  else
    { printedConfigError := true, returnValue := some 1
      consumerStarted := false, pollersStarted := false }

/-- The process exit status of `python main.py`: the module-level guard
(main.py lines 63-64) is `main()` on a bare line — the return value of
`main` is discarded and `sys.exit` is never called, so the interpreter
falls off the end of the module and exits 0 whatever `main` returned. -/
def script_exit_code (configLoadOk : Bool) : Nat :=
  match (main_run configLoadOk).returnValue with
  | _ => 0

/-! ## Helper lemmas about the store operations -/

/-- One store state extends another when every table of the second is the
corresponding table of the first with rows appended at the end.  All four
insert operations only append, so this relation is preserved by every
operation and presence of a row is monotone along it. -/
def DBExtends (d1 d2 : DBState) : Prop :=
  (∃ a, d2.rss_items = d1.rss_items ++ a) ∧
  (∃ b, d2.patternsTbl = d1.patternsTbl ++ b) ∧
  (∃ c, d2.matchesTbl = d1.matchesTbl ++ c) ∧
  (∃ e, d2.evidence = d1.evidence ++ e)

/-- Everything a commit of `(item, ms)` writes is already present in the
store.  Under this condition the commit is a no-op. -/
def AllPresent (db : DBState) (item : RssItem) (ms : List PatternMatch) : Prop :=
  hasRssItem db item.sha256 = true ∧
  ∀ pm ∈ ms, hasPatternText db pm.pattern.pattern = true ∧
    ∀ m ∈ pm.matchList, hasMatchText db m = true ∧
      hasTriple db item.sha256 m pm.pattern.pattern = true

/-- A concrete item node used to instantiate the dedup theorems. -/
def wItemA : FeedItemNode := { text := "a", fields := {} }

/-- A concrete compiled pattern used to instantiate the store theorems. -/
def wPattern : RePattern :=
  { pattern := "al", findall := fun t => if t = "alert" then ["al"] else [] }

/-- A concrete pattern-match entry for `wPattern`. -/
def wPM : PatternMatch := { pattern := wPattern, matchList := ["al"] }

/-- A concrete rss item row. -/
def wRow : RssItem := mkRssItem "h1" {}

/-- Reading an `rss_items` row back by its primary key (the Store
interface's read side; the repository's code has no SELECT, so this is
the standard key lookup over the table's rows). -/
def lookup_rss_item (db : DBState) (sha : String) : Option RssItem :=
  db.rss_items.find? (·.sha256 == sha)

/-- A concrete parsed field map: present non-empty title, absent category
and absent link. -/
def wFields : ParsedItem := { title := some (some "T") }

theorem beqString_comm (a b : String) : (a == b) = (b == a) := by
  by_cases h : a = b
  · subst h; rfl
  · rw [beq_eq_false_iff_ne.mpr h, beq_eq_false_iff_ne.mpr (Ne.symm h)]

theorem tripleEq_mk_self (i : Nat) (sha m pat : String) :
    tripleEq ⟨i, sha, m, pat⟩ sha m pat = true := by
  simp [tripleEq]

theorem tripleEq_mk_swap (i : Nat) (sha m pat : String) (x : EvidenceRow) :
    tripleEq ⟨i, sha, m, pat⟩ x.rss_item_sha256 x.matchVal x.patternVal =
      tripleEq x sha m pat := by
  simp only [tripleEq]
  rw [beqString_comm sha, beqString_comm m, beqString_comm pat]

theorem tripleEq_eq_true_iff (r : EvidenceRow) (sha m pat : String) :
    tripleEq r sha m pat = true ↔
      r.rss_item_sha256 = sha ∧ r.matchVal = m ∧ r.patternVal = pat := by
  simp [tripleEq, Bool.and_eq_true, beq_iff_eq, and_assoc]

theorem insert_rss_item_parts (db : DBState) (row : RssItem) :
    (insert_rss_item_if_not_exists db row).patternsTbl = db.patternsTbl ∧
    (insert_rss_item_if_not_exists db row).matchesTbl = db.matchesTbl ∧
    (insert_rss_item_if_not_exists db row).evidence = db.evidence := by
  unfold insert_rss_item_if_not_exists
  split <;> exact ⟨rfl, rfl, rfl⟩

theorem insert_pattern_parts (db : DBState) (p : String) :
    (insert_pattern_if_not_exists db p).rss_items = db.rss_items ∧
    (insert_pattern_if_not_exists db p).matchesTbl = db.matchesTbl ∧
    (insert_pattern_if_not_exists db p).evidence = db.evidence := by
  unfold insert_pattern_if_not_exists
  split <;> exact ⟨rfl, rfl, rfl⟩

theorem insert_match_parts (db : DBState) (m : String) :
    (insert_match_if_not_exists db m).rss_items = db.rss_items ∧
    (insert_match_if_not_exists db m).patternsTbl = db.patternsTbl ∧
    (insert_match_if_not_exists db m).evidence = db.evidence := by
  unfold insert_match_if_not_exists
  split <;> exact ⟨rfl, rfl, rfl⟩

theorem insert_evidence_parts (db : DBState) (sha m pat : String) :
    (insert_evidence_if_not_exists db sha m pat).rss_items = db.rss_items ∧
    (insert_evidence_if_not_exists db sha m pat).patternsTbl = db.patternsTbl ∧
    (insert_evidence_if_not_exists db sha m pat).matchesTbl = db.matchesTbl := by
  unfold insert_evidence_if_not_exists
  split <;> exact ⟨rfl, rfl, rfl⟩

theorem dbExtends_refl (d : DBState) : DBExtends d d :=
  ⟨⟨[], by simp⟩, ⟨[], by simp⟩, ⟨[], by simp⟩, ⟨[], by simp⟩⟩

theorem dbExtends_trans {d1 d2 d3 : DBState}
    (h12 : DBExtends d1 d2) (h23 : DBExtends d2 d3) : DBExtends d1 d3 := by
  obtain ⟨⟨a1, ha1⟩, ⟨b1, hb1⟩, ⟨c1, hc1⟩, ⟨e1, he1⟩⟩ := h12
  obtain ⟨⟨a2, ha2⟩, ⟨b2, hb2⟩, ⟨c2, hc2⟩, ⟨e2, he2⟩⟩ := h23
  exact ⟨⟨a1 ++ a2, by simp [ha2, ha1]⟩, ⟨b1 ++ b2, by simp [hb2, hb1]⟩,
    ⟨c1 ++ c2, by simp [hc2, hc1]⟩, ⟨e1 ++ e2, by simp [he2, he1]⟩⟩

theorem dbExtends_insert_rss_item (db : DBState) (row : RssItem) :
    DBExtends db (insert_rss_item_if_not_exists db row) := by
  unfold insert_rss_item_if_not_exists
  split
  · exact dbExtends_refl db
  · exact ⟨⟨[row], rfl⟩, ⟨[], by simp⟩, ⟨[], by simp⟩, ⟨[], by simp⟩⟩

theorem dbExtends_insert_pattern (db : DBState) (p : String) :
    DBExtends db (insert_pattern_if_not_exists db p) := by
  unfold insert_pattern_if_not_exists
  split
  · exact dbExtends_refl db
  · exact ⟨⟨[], by simp⟩, ⟨[p], rfl⟩, ⟨[], by simp⟩, ⟨[], by simp⟩⟩

theorem dbExtends_insert_match (db : DBState) (m : String) :
    DBExtends db (insert_match_if_not_exists db m) := by
  unfold insert_match_if_not_exists
  split
  · exact dbExtends_refl db
  · exact ⟨⟨[], by simp⟩, ⟨[], by simp⟩, ⟨[m], rfl⟩, ⟨[], by simp⟩⟩

theorem dbExtends_insert_evidence (db : DBState) (sha m pat : String) :
    DBExtends db (insert_evidence_if_not_exists db sha m pat) := by
  unfold insert_evidence_if_not_exists
  split
  · exact dbExtends_refl db
  · exact ⟨⟨[], by simp⟩, ⟨[], by simp⟩, ⟨[], by simp⟩,
      ⟨[⟨db.nextEvidenceId, sha, m, pat⟩], rfl⟩⟩

theorem dbExtends_foldl {α : Type} (f : DBState → α → DBState)
    (hf : ∀ d x, DBExtends d (f d x)) :
    ∀ (l : List α) (d : DBState), DBExtends d (l.foldl f d) := by
  intro l
  induction l with
  | nil => intro d; exact dbExtends_refl d
  | cons x xs ih =>
    intro d
    exact dbExtends_trans (hf d x) (ih (f d x))

theorem dbExtends_commitPatternMatch (db : DBState) (sha : String) (pm : PatternMatch) :
    DBExtends db (commitPatternMatch db sha pm) := by
  unfold commitPatternMatch
  refine dbExtends_trans (dbExtends_insert_pattern db pm.pattern.pattern) ?_
  refine dbExtends_trans
    (dbExtends_foldl insert_match_if_not_exists dbExtends_insert_match pm.matchList _) ?_
  exact dbExtends_foldl _ (fun d m => dbExtends_insert_evidence d sha m pm.pattern.pattern)
    pm.matchList _

theorem dbExtends_commit (db : DBState) (item : RssItem) (ms : List PatternMatch) :
    DBExtends db (commit_rss_item_and_matches db item ms) := by
  unfold commit_rss_item_and_matches
  refine dbExtends_trans (dbExtends_insert_rss_item db item) ?_
  exact dbExtends_foldl _ (fun d pm => dbExtends_commitPatternMatch d item.sha256 pm) ms _

theorem hasRssItem_mono {d1 d2 : DBState} (h : DBExtends d1 d2) (sha : String)
    (hh : hasRssItem d1 sha = true) : hasRssItem d2 sha = true := by
  obtain ⟨⟨a, ha⟩, -, -, -⟩ := h
  simp only [hasRssItem, ha, List.any_append, Bool.or_eq_true]
  exact Or.inl hh

theorem hasPatternText_mono {d1 d2 : DBState} (h : DBExtends d1 d2) (p : String)
    (hh : hasPatternText d1 p = true) : hasPatternText d2 p = true := by
  obtain ⟨-, ⟨b, hb⟩, -, -⟩ := h
  simp only [hasPatternText, hb, List.any_append, Bool.or_eq_true]
  exact Or.inl hh

theorem hasMatchText_mono {d1 d2 : DBState} (h : DBExtends d1 d2) (m : String)
    (hh : hasMatchText d1 m = true) : hasMatchText d2 m = true := by
  obtain ⟨-, -, ⟨c, hc⟩, -⟩ := h
  simp only [hasMatchText, hc, List.any_append, Bool.or_eq_true]
  exact Or.inl hh

theorem hasTriple_mono {d1 d2 : DBState} (h : DBExtends d1 d2) (sha m pat : String)
    (hh : hasTriple d1 sha m pat = true) : hasTriple d2 sha m pat = true := by
  obtain ⟨-, -, -, ⟨e, he⟩⟩ := h
  simp only [hasTriple, he, List.any_append, Bool.or_eq_true]
  exact Or.inl hh

theorem hasRssItem_insert_self (db : DBState) (row : RssItem) :
    hasRssItem (insert_rss_item_if_not_exists db row) row.sha256 = true := by
  unfold insert_rss_item_if_not_exists
  split
  · assumption
  · simp [hasRssItem, List.any_append]

theorem hasPatternText_insert_self (db : DBState) (p : String) :
    hasPatternText (insert_pattern_if_not_exists db p) p = true := by
  unfold insert_pattern_if_not_exists
  split
  · assumption
  · simp [hasPatternText, List.any_append]

theorem hasMatchText_insert_self (db : DBState) (m : String) :
    hasMatchText (insert_match_if_not_exists db m) m = true := by
  unfold insert_match_if_not_exists
  split
  · assumption
  · simp [hasMatchText, List.any_append]

theorem hasTriple_insert_self (db : DBState) (sha m pat : String) :
    hasTriple (insert_evidence_if_not_exists db sha m pat) sha m pat = true := by
  unfold insert_evidence_if_not_exists
  split
  · assumption
  · simp [hasTriple, List.any_append, tripleEq_mk_self]

theorem insert_rss_item_of_has (db : DBState) (row : RssItem)
    (h : hasRssItem db row.sha256 = true) :
    insert_rss_item_if_not_exists db row = db := by
  unfold insert_rss_item_if_not_exists
  simp [h]

theorem insert_pattern_of_has (db : DBState) (p : String)
    (h : hasPatternText db p = true) :
    insert_pattern_if_not_exists db p = db := by
  unfold insert_pattern_if_not_exists
  simp [h]

theorem insert_match_of_has (db : DBState) (m : String)
    (h : hasMatchText db m = true) :
    insert_match_if_not_exists db m = db := by
  unfold insert_match_if_not_exists
  simp [h]

theorem insert_evidence_of_has (db : DBState) (sha m pat : String)
    (h : hasTriple db sha m pat = true) :
    insert_evidence_if_not_exists db sha m pat = db := by
  unfold insert_evidence_if_not_exists
  simp [h]

theorem foldl_eq_self {α : Type} (f : DBState → α → DBState) (d : DBState)
    (l : List α) (h : ∀ x ∈ l, f d x = d) : l.foldl f d = d := by
  induction l with
  | nil => rfl
  | cons x xs ih =>
    rw [List.foldl_cons, h x (List.mem_cons_self x xs)]
    exact ih fun y hy => h y (List.mem_cons_of_mem x hy)

theorem commitPatternMatch_of_present (db : DBState) (sha : String) (pm : PatternMatch)
    (hp : hasPatternText db pm.pattern.pattern = true)
    (hm : ∀ m ∈ pm.matchList,
      hasMatchText db m = true ∧ hasTriple db sha m pm.pattern.pattern = true) :
    commitPatternMatch db sha pm = db := by
  unfold commitPatternMatch
  dsimp only
  rw [insert_pattern_of_has db _ hp,
    foldl_eq_self _ _ _ fun m hmem => insert_match_of_has db m (hm m hmem).1]
  exact foldl_eq_self _ _ _ fun m hmem => insert_evidence_of_has db sha m _ (hm m hmem).2

theorem commit_of_allPresent (db : DBState) (item : RssItem) (ms : List PatternMatch)
    (h : AllPresent db item ms) : commit_rss_item_and_matches db item ms = db := by
  unfold commit_rss_item_and_matches
  rw [insert_rss_item_of_has db item h.1]
  exact foldl_eq_self _ _ _ fun pm hpm =>
    commitPatternMatch_of_present db item.sha256 pm (h.2 pm hpm).1 (h.2 pm hpm).2

theorem foldl_insert_match_establishes :
    ∀ (l : List String) (d : DBState) (m : String), m ∈ l →
      hasMatchText (l.foldl insert_match_if_not_exists d) m = true
  | [], _, m, hm => absurd hm (List.not_mem_nil m)
  | x :: xs, d, m, hm => by
    rw [List.foldl_cons]
    rcases List.mem_cons.mp hm with h | h
    · subst h
      exact hasMatchText_mono (dbExtends_foldl _ dbExtends_insert_match xs _) _
        (hasMatchText_insert_self d m)
    · exact foldl_insert_match_establishes xs _ m h

theorem foldl_insert_evidence_establishes :
    ∀ (l : List String) (d : DBState) (sha pat m : String), m ∈ l →
      hasTriple (l.foldl (fun d' m' => insert_evidence_if_not_exists d' sha m' pat) d)
        sha m pat = true
  | [], _, _, _, m, hm => absurd hm (List.not_mem_nil m)
  | x :: xs, d, sha, pat, m, hm => by
    rw [List.foldl_cons]
    rcases List.mem_cons.mp hm with h | h
    · subst h
      exact hasTriple_mono
        (dbExtends_foldl _ (fun d' m' => dbExtends_insert_evidence d' sha m' pat) xs _) _ _ _
        (hasTriple_insert_self d sha m pat)
    · exact foldl_insert_evidence_establishes xs _ sha pat m h

theorem commitPatternMatch_establishes (db : DBState) (sha : String) (pm : PatternMatch) :
    hasPatternText (commitPatternMatch db sha pm) pm.pattern.pattern = true ∧
    ∀ m ∈ pm.matchList, hasMatchText (commitPatternMatch db sha pm) m = true ∧
      hasTriple (commitPatternMatch db sha pm) sha m pm.pattern.pattern = true := by
  unfold commitPatternMatch
  dsimp only
  refine ⟨?_, fun m hm => ⟨?_, ?_⟩⟩
  · exact hasPatternText_mono
      (dbExtends_foldl _ (fun d' m' => dbExtends_insert_evidence d' sha m' pm.pattern.pattern)
        pm.matchList _) _
      (hasPatternText_mono (dbExtends_foldl _ dbExtends_insert_match pm.matchList _) _
        (hasPatternText_insert_self db pm.pattern.pattern))
  · exact hasMatchText_mono
      (dbExtends_foldl _ (fun d' m' => dbExtends_insert_evidence d' sha m' pm.pattern.pattern)
        pm.matchList _) _
      (foldl_insert_match_establishes pm.matchList _ m hm)
  · exact foldl_insert_evidence_establishes pm.matchList _ sha pm.pattern.pattern m hm

theorem foldl_commitPM_establishes :
    ∀ (ms : List PatternMatch) (d : DBState) (sha : String) (pm : PatternMatch), pm ∈ ms →
      hasPatternText (ms.foldl (fun d' pm' => commitPatternMatch d' sha pm') d)
          pm.pattern.pattern = true ∧
      ∀ m ∈ pm.matchList,
        hasMatchText (ms.foldl (fun d' pm' => commitPatternMatch d' sha pm') d) m = true ∧
        hasTriple (ms.foldl (fun d' pm' => commitPatternMatch d' sha pm') d)
          sha m pm.pattern.pattern = true
  | [], _, _, pm, hpm => absurd hpm (List.not_mem_nil pm)
  | pm0 :: rest, d, sha, pm, hpm => by
    rw [List.foldl_cons]
    rcases List.mem_cons.mp hpm with h | h
    · subst h
      have hest := commitPatternMatch_establishes d sha pm
      have hext : DBExtends (commitPatternMatch d sha pm)
          (rest.foldl (fun d' pm' => commitPatternMatch d' sha pm')
            (commitPatternMatch d sha pm)) :=
        dbExtends_foldl _ (fun d' pm' => dbExtends_commitPatternMatch d' sha pm') rest _
      exact ⟨hasPatternText_mono hext _ hest.1, fun m hm =>
        ⟨hasMatchText_mono hext _ (hest.2 m hm).1,
         hasTriple_mono hext _ _ _ (hest.2 m hm).2⟩⟩
    · exact foldl_commitPM_establishes rest _ sha pm h

theorem commit_establishes (db : DBState) (item : RssItem) (ms : List PatternMatch) :
    AllPresent (commit_rss_item_and_matches db item ms) item ms := by
  unfold commit_rss_item_and_matches AllPresent
  exact ⟨hasRssItem_mono
      (dbExtends_foldl _ (fun d' pm' => dbExtends_commitPatternMatch d' item.sha256 pm') ms _)
      _ (hasRssItem_insert_self db item),
    fun pm hpm => foldl_commitPM_establishes ms _ item.sha256 pm hpm⟩

theorem commit_idem (db : DBState) (item : RssItem) (ms : List PatternMatch) :
    commit_rss_item_and_matches (commit_rss_item_and_matches db item ms) item ms =
      commit_rss_item_and_matches db item ms :=
  commit_of_allPresent _ _ _ (commit_establishes db item ms)

theorem rows_triples_distinct_iff_pairwise (l : List EvidenceRow) :
    rows_triples_distinct l = true ↔
      l.Pairwise fun a b =>
        tripleEq b a.rss_item_sha256 a.matchVal a.patternVal = false := by
  induction l with
  | nil => simp [rows_triples_distinct]
  | cons r t ih =>
    simp [rows_triples_distinct, Bool.and_eq_true, Bool.not_eq_true',
      List.any_eq_false, List.pairwise_cons, ih, and_comm]

theorem rows_triples_distinct_insert_evidence (db : DBState) (sha m pat : String)
    (h : rows_triples_distinct db.evidence = true) :
    rows_triples_distinct (insert_evidence_if_not_exists db sha m pat).evidence = true := by
  unfold insert_evidence_if_not_exists
  split
  · exact h
  · rename_i hno
    have hf : hasTriple db sha m pat = false := by
      revert hno
      cases hasTriple db sha m pat <;> simp
    rw [rows_triples_distinct_iff_pairwise] at h ⊢
    rw [List.pairwise_append]
    refine ⟨h, List.pairwise_singleton _ _, ?_⟩
    intro a ha b hb
    rw [List.mem_singleton] at hb
    subst hb
    rw [tripleEq_mk_swap]
    have := List.any_eq_false.mp hf a ha
    revert this
    cases tripleEq a sha m pat <;> simp

theorem foldl_insert_match_evidence (l : List String) (d : DBState) :
    (l.foldl insert_match_if_not_exists d).evidence = d.evidence := by
  induction l generalizing d with
  | nil => rfl
  | cons x xs ih =>
    rw [List.foldl_cons, ih, (insert_match_parts d x).2.2]

theorem rtd_foldl_insert_evidence (l : List String) (sha pat : String) :
    ∀ d : DBState, rows_triples_distinct d.evidence = true →
      rows_triples_distinct
        ((l.foldl (fun d' m => insert_evidence_if_not_exists d' sha m pat) d)).evidence = true := by
  induction l with
  | nil => intro d h; exact h
  | cons x xs ih =>
    intro d h
    rw [List.foldl_cons]
    exact ih _ (rows_triples_distinct_insert_evidence d sha x pat h)

theorem rtd_commitPatternMatch (d : DBState) (sha : String) (pm : PatternMatch)
    (h : rows_triples_distinct d.evidence = true) :
    rows_triples_distinct (commitPatternMatch d sha pm).evidence = true := by
  unfold commitPatternMatch
  dsimp only
  apply rtd_foldl_insert_evidence
  rw [foldl_insert_match_evidence, (insert_pattern_parts d pm.pattern.pattern).2.2]
  exact h

theorem rtd_commit (db : DBState) (item : RssItem) (ms : List PatternMatch)
    (h : rows_triples_distinct db.evidence = true) :
    rows_triples_distinct (commit_rss_item_and_matches db item ms).evidence = true := by
  unfold commit_rss_item_and_matches
  have h0 : rows_triples_distinct (insert_rss_item_if_not_exists db item).evidence = true := by
    rw [(insert_rss_item_parts db item).2.2]; exact h
  revert h0
  generalize insert_rss_item_if_not_exists db item = d0
  induction ms generalizing d0 with
  | nil => intro h0; exact h0
  | cons pm rest ih =>
    intro h0
    rw [List.foldl_cons]
    exact ih _ (rtd_commitPatternMatch d0 item.sha256 pm h0)

theorem count_eq_one_of_distinct_has (sha m pat : String) :
    ∀ l : List EvidenceRow, rows_triples_distinct l = true →
      (l.any (tripleEq · sha m pat)) = true →
      (l.filter (tripleEq · sha m pat)).length = 1 := by
  intro l
  induction l with
  | nil => intro _ hh; simp at hh
  | cons r t ih =>
    intro hd hh
    simp only [rows_triples_distinct, Bool.and_eq_true, Bool.not_eq_true'] at hd
    obtain ⟨hnot, hdt⟩ := hd
    by_cases hr : tripleEq r sha m pat = true
    · have hempty : t.filter (tripleEq · sha m pat) = [] := by
        rw [List.filter_eq_nil_iff]
        intro x hx hxt
        obtain ⟨h1, h2, h3⟩ := (tripleEq_eq_true_iff r sha m pat).mp hr
        obtain ⟨g1, g2, g3⟩ := (tripleEq_eq_true_iff x sha m pat).mp hxt
        have hxr : tripleEq x r.rss_item_sha256 r.matchVal r.patternVal = true :=
          (tripleEq_eq_true_iff _ _ _ _).mpr ⟨by rw [g1, h1], by rw [g2, h2], by rw [g3, h3]⟩
        have hany : (t.any fun x => tripleEq x r.rss_item_sha256 r.matchVal r.patternVal) = true :=
          List.any_eq_true.mpr ⟨x, hx, hxr⟩
        rw [hnot] at hany
        exact Bool.false_ne_true hany
      simp [List.filter_cons, hr, hempty]
    · have hr' : tripleEq r sha m pat = false := by
        revert hr; cases tripleEq r sha m pat <;> simp
      rw [List.filter_cons]
      simp only [hr', Bool.false_eq_true, if_false]
      apply ih hdt
      simp only [List.any_cons, hr', Bool.false_or] at hh
      exact hh

theorem process_item_of_mem (f : String → String) (ps : List RePattern)
    (seen : List String) (it : FeedItemNode) (h : f it.text ∈ seen) :
    process_item f ps seen it = { seen := seen, emit := none, findallRuns := 0 } := by
  unfold process_item
  dsimp only
  rw [if_pos h]

theorem process_item_seen_not_mem (f : String → String) (ps : List RePattern)
    (seen : List String) (it : FeedItemNode) (h : f it.text ∉ seen) :
    (process_item f ps seen it).seen = f it.text :: seen := by
  unfold process_item
  dsimp only
  rw [if_neg h]
  split <;> rfl

theorem mem_process_item_seen (f : String → String) (ps : List RePattern)
    (seen : List String) (it : FeedItemNode) :
    f it.text ∈ (process_item f ps seen it).seen := by
  by_cases h : f it.text ∈ seen
  · rw [process_item_of_mem f ps seen it h]
    exact h
  · rw [process_item_seen_not_mem f ps seen it h]
    exact List.mem_cons_self _ _

/-- C1: an item whose raw text hashes to an already-seen digest is skipped
before any pattern matching or persistence — the call returns with the
seen-set unchanged, no `findall` run and no commit call; a fresh item's
hash is added to the seen-set whether or not any pattern matches; hence a
second item with the same raw text as an already-processed one is always
skipped without re-matching or writing. -/
theorem c1_dedup_skips_before_matching_and_marks_regardless
    (f : String → String) (ps : List RePattern) (seen : List String)
    (it it2 : FeedItemNode) :
    (f it.text ∈ seen →
      process_item f ps seen it = { seen := seen, emit := none, findallRuns := 0 }) ∧
    (f it.text ∉ seen →
      (process_item f ps seen it).seen = f it.text :: seen) ∧
    (it2.text = it.text →
      process_item f ps (process_item f ps seen it).seen it2 =
        { seen := (process_item f ps seen it).seen, emit := none, findallRuns := 0 }) := by
  refine ⟨process_item_of_mem f ps seen it, process_item_seen_not_mem f ps seen it,
    fun he => ?_⟩
  apply process_item_of_mem
  rw [he]
  exact mem_process_item_seen f ps seen it

/-- Witness for C1 at a concrete hash function, pattern list and item. -/
theorem c1_witness :
    process_item (fun s => s) [] ["a"] wItemA =
      { seen := ["a"], emit := none, findallRuns := 0 } ∧
    (process_item (fun s => s) [] [] wItemA).seen = "a" :: [] ∧
    process_item (fun s => s) [] (process_item (fun s => s) [] [] wItemA).seen wItemA =
      { seen := (process_item (fun s => s) [] [] wItemA).seen,
        emit := none, findallRuns := 0 } :=
  ⟨(c1_dedup_skips_before_matching_and_marks_regardless (fun s => s) [] ["a"] wItemA wItemA).1
      (by simp [wItemA]),
   (c1_dedup_skips_before_matching_and_marks_regardless (fun s => s) [] [] wItemA wItemA).2.1
      (by simp [wItemA]),
   (c1_dedup_skips_before_matching_and_marks_regardless (fun s => s) [] [] wItemA wItemA).2.2
      rfl⟩

/-- C5: the consumer's loop guard `while not (cancelled and queue.empty())`
fails exactly when cancellation has been observed and the queue is empty,
so the loop exits only then; and once cancellation is observed, the loop
dequeues and commits every entry still in the queue, in order, before
exiting. -/
theorem c5_consumer_drains_queue_then_exits :
    (∀ c qe : Bool, loopGuard c qe = false ↔ c = true ∧ qe = true) ∧
    ∀ (q : List (RssItem × List PatternMatch)) (db : DBState),
      (start_listen_drain q db).2 = q ∧
      (start_listen_drain q db).1 =
        q.foldl (fun d e => commit_rss_item_and_matches d e.1 e.2) db := by
  constructor
  · intro c qe
    cases c <;> cases qe <;> simp [loopGuard]
  · intro q
    induction q with
    | nil => intro db; exact ⟨rfl, rfl⟩
    | cons e t ih =>
      intro db
      constructor
      · simp [start_listen_drain, (ih _).1]
      · simp [start_listen_drain, (ih _).2]

theorem runFrom_all_ok (f : String → String) (ps : List RePattern)
    (ins : List CycleIn) :
    ∀ (seen : List String) (emits : List (RssItem × List PatternMatch)) (n : Nat),
      (∀ x ∈ ins, x.fetch ≠ FetchResult.failure ∧ x.stopDuringWait = false) →
      (runFrom f ps seen emits n ins).fetches = n + ins.length ∧
      (runFrom f ps seen emits n ins).outcome = RunOutcome.running ∧
      (runFrom f ps seen emits n ins).sessionClosed = false := by
  induction ins with
  | nil =>
    intro seen emits n _
    exact ⟨rfl, rfl, rfl⟩
  | cons c rest ih =>
    intro seen emits n hall
    obtain ⟨hf, hs⟩ := hall c (List.mem_cons_self c rest)
    have hrest := fun x hx => hall x (List.mem_cons_of_mem c hx)
    unfold runFrom
    cases hc : c.fetch with
    | failure => exact absurd hc hf
    | ok items =>
      dsimp only
      rw [hs]
      simp only [Bool.false_eq_true, if_false]
      refine ⟨?_, (ih _ _ (n + 1) hrest).2.1, (ih _ _ (n + 1) hrest).2.2⟩
      rw [(ih _ _ (n + 1) hrest).1, List.length_cons]
      omega

theorem runFrom_fail (f : String → String) (ps : List RePattern)
    (post : List CycleIn) (c : CycleIn) (hc : c.fetch = FetchResult.failure) :
    ∀ (pre : List CycleIn) (seen : List String)
      (emits : List (RssItem × List PatternMatch)) (n : Nat),
      (∀ x ∈ pre, x.fetch ≠ FetchResult.failure ∧ x.stopDuringWait = false) →
      (runFrom f ps seen emits n (pre ++ c :: post)).fetches = n + pre.length + 1 ∧
      (runFrom f ps seen emits n (pre ++ c :: post)).outcome = RunOutcome.errored ∧
      (runFrom f ps seen emits n (pre ++ c :: post)).sessionClosed = false := by
  intro pre
  induction pre with
  | nil =>
    intro seen emits n _
    rw [List.nil_append]
    unfold runFrom
    rw [hc]
    dsimp only
    exact ⟨by simp, rfl, rfl⟩
  | cons x rest ih =>
    intro seen emits n hall
    obtain ⟨hf, hs⟩ := hall x (List.mem_cons_self x rest)
    have hrest := fun y hy => hall y (List.mem_cons_of_mem x hy)
    rw [List.cons_append]
    unfold runFrom
    cases hx : x.fetch with
    | failure => exact absurd hx hf
    | ok items =>
      dsimp only
      rw [hs]
      simp only [Bool.false_eq_true, if_false]
      refine ⟨?_, (ih _ _ (n + 1) hrest).2.1, (ih _ _ (n + 1) hrest).2.2⟩
      rw [(ih _ _ (n + 1) hrest).1, List.length_cons]
      omega

/-- C6: a fetch failure (transport error or non-success status) on some
cycle propagates out of the poller's loop: that poller performs no fetch
beyond the failing one, its run ends in the errored state, while any other
poller — a separate `run` invocation with its own state — completes all
of its own cycles unaffected. -/
theorem c6_fetch_failure_terminates_only_that_poller
    (f : String → String) (ps : List RePattern)
    (pre post : List CycleIn) (c : CycleIn)
    (hpre : ∀ x ∈ pre, x.fetch ≠ FetchResult.failure ∧ x.stopDuringWait = false)
    (hc : c.fetch = FetchResult.failure) :
    (run f ps (pre ++ c :: post)).fetches = pre.length + 1 ∧
    (run f ps (pre ++ c :: post)).outcome = RunOutcome.errored ∧
    ∀ (f2 : String → String) (ps2 : List RePattern) (ins2 : List CycleIn),
      (∀ x ∈ ins2, x.fetch ≠ FetchResult.failure ∧ x.stopDuringWait = false) →
      (run f2 ps2 ins2).fetches = ins2.length ∧
      (run f2 ps2 ins2).outcome = RunOutcome.running := by
  have h := runFrom_fail f ps post c hc pre [] [] 0 hpre
  refine ⟨by rw [show run f ps (pre ++ c :: post) =
      runFrom f ps [] [] 0 (pre ++ c :: post) from rfl, h.1]; omega, h.2.1, ?_⟩
  intro f2 ps2 ins2 h2
  have g := runFrom_all_ok f2 ps2 ins2 [] [] 0 h2
  exact ⟨by rw [show run f2 ps2 ins2 = runFrom f2 ps2 [] [] 0 ins2 from rfl, g.1]; omega,
    g.2.1⟩

/-- Witness for C6: one successful empty cycle, then a failing fetch; the
poller performs exactly two fetches and ends errored, while a second
poller observing no cycles stays running with zero fetches. -/
theorem c6_witness :
    (run (fun s => s) []
        [{ fetch := FetchResult.ok [], stopDuringWait := false },
         { fetch := FetchResult.failure, stopDuringWait := false }]).fetches = 2 ∧
    (run (fun s => s) []
        [{ fetch := FetchResult.ok [], stopDuringWait := false },
         { fetch := FetchResult.failure, stopDuringWait := false }]).outcome =
      RunOutcome.errored ∧
    (run (fun s => s) [] []).fetches = 0 ∧
    (run (fun s => s) [] []).outcome = RunOutcome.running := by
  have h := c6_fetch_failure_terminates_only_that_poller (fun s => s) []
    [{ fetch := FetchResult.ok [], stopDuringWait := false }] []
    { fetch := FetchResult.failure, stopDuringWait := false }
    (by
      intro x hx
      rw [List.mem_singleton] at hx
      subst hx
      exact ⟨fun hcon => FetchResult.noConfusion hcon, rfl⟩)
    rfl
  have h2 := h.2.2 (fun s => s) [] [] (by intro x hx; exact absurd hx (List.not_mem_nil x))
  exact ⟨h.1, h.2.1, h2.1, h2.2⟩

/-- C9 counterexample: a poller whose single cycle's fetch fails exits its
run loop (errored), yet the XML session is not closed — `close()` sits
after the `while` loop with no try/finally, so the propagating exception
skips it. -/
theorem c9_counterexample :
    (run (fun s => s) []
        [{ fetch := FetchResult.failure, stopDuringWait := false }]).outcome =
      RunOutcome.errored ∧
    (run (fun s => s) []
        [{ fetch := FetchResult.failure, stopDuringWait := false }]).sessionClosed =
      false :=
  ⟨rfl, rfl⟩

/-- C9 amended: the XML session is released exactly when the run loop
exits cleanly through the running flag (a stop during the wait); an exit
by propagated fetch failure leaves the session open. -/
theorem c9_session_closed_iff_clean_stop (f : String → String) (ps : List RePattern) :
    ∀ (ins : List CycleIn) (seen : List String)
      (emits : List (RssItem × List PatternMatch)) (n : Nat),
      (runFrom f ps seen emits n ins).sessionClosed = true ↔
        (runFrom f ps seen emits n ins).outcome = RunOutcome.stopped := by
  intro ins
  induction ins with
  | nil => intro seen emits n; simp [runFrom]
  | cons c rest ih =>
    intro seen emits n
    rcases c with ⟨cf, cs⟩
    cases cf with
    | failure => simp [runFrom]
    | ok items =>
      cases cs with
      | true => simp [runFrom]
      | false =>
        unfold runFrom
        dsimp only
        exact ih _ _ _

/-- C2: the consumer's commit is idempotent — repeating it with identical
arguments changes nothing — it preserves pairwise distinctness of the
stored evidence triples, and starting from a table with distinct triples,
after two identical commits each committed triple is stored in exactly
one evidence row. -/
theorem c2_evidence_insert_idempotent (db : DBState) (item : RssItem)
    (ms : List PatternMatch) :
    commit_rss_item_and_matches (commit_rss_item_and_matches db item ms) item ms =
      commit_rss_item_and_matches db item ms ∧
    (rows_triples_distinct db.evidence = true →
      rows_triples_distinct (commit_rss_item_and_matches db item ms).evidence = true) ∧
    (rows_triples_distinct db.evidence = true →
      ∀ pm ∈ ms, ∀ m ∈ pm.matchList,
        countTriple
            (commit_rss_item_and_matches (commit_rss_item_and_matches db item ms) item ms)
            item.sha256 m pm.pattern.pattern = 1) := by
  refine ⟨commit_idem db item ms, rtd_commit db item ms, fun h pm hpm m hm => ?_⟩
  rw [commit_idem db item ms]
  exact count_eq_one_of_distinct_has item.sha256 m pm.pattern.pattern _
    (rtd_commit db item ms h)
    (((commit_establishes db item ms).2 pm hpm).2 m hm).2

/-- Witness for C2: two identical commits of one item with one match into
the fresh database coincide and store the triple exactly once. -/
theorem c2_witness :
    commit_rss_item_and_matches (commit_rss_item_and_matches emptyDB wRow [wPM]) wRow [wPM] =
      commit_rss_item_and_matches emptyDB wRow [wPM] ∧
    rows_triples_distinct (commit_rss_item_and_matches emptyDB wRow [wPM]).evidence = true ∧
    countTriple
        (commit_rss_item_and_matches (commit_rss_item_and_matches emptyDB wRow [wPM])
          wRow [wPM])
        wRow.sha256 "al" wPM.pattern.pattern = 1 := by
  obtain ⟨h1, h2, h3⟩ := c2_evidence_insert_idempotent emptyDB wRow [wPM]
  exact ⟨h1, h2 rfl, h3 rfl wPM (List.mem_singleton.mpr rfl) "al" (by simp [wPM])⟩

/-- C3 counterexample: the declared schema of the `evidence` table (its
only key is the autoincrement `id`) admits two rows with equal
`(rss_item_sha256, match, pattern)` triples, so the schema itself does not
enforce uniqueness of the triple. -/
theorem c3_counterexample :
    ¬ ∀ rows : List EvidenceRow, evidence_schema_admits rows = true →
        rows_triples_distinct rows = true := by
  intro hall
  exact absurd (hall [⟨1, "h", "m", "p"⟩, ⟨2, "h", "m", "p"⟩] (by decide)) (by decide)

/-- C3 amended: the schema constrains only the id column, but every
database state reachable through the Store interface (creation followed
by consumer commits) still has pairwise distinct evidence triples, because
the evidence insert itself is guarded by `WHERE NOT EXISTS`. -/
theorem c3_reachable_states_have_distinct_triples (db : DBState)
    (h : DBReachable db) : rows_triples_distinct db.evidence = true := by
  induction h with
  | init => rfl
  | commit db item ms _ ih => exact rtd_commit db item ms ih

/-- Witness for C3: the state after one concrete commit is reachable and
has distinct evidence triples. -/
theorem c3_witness :
    rows_triples_distinct (commit_rss_item_and_matches emptyDB wRow [wPM]).evidence = true :=
  c3_reachable_states_have_distinct_triples _
    (DBReachable.commit emptyDB wRow [wPM] DBReachable.init)

/-- C4: on a matching item `__process_item` reaches its final statement
with the matched entry as argument, and a non-matching item produces no
call at all; but that final statement invokes
`commit_rss_item_and_matches` directly on the scraper's `db` object —
which, as wired in `main`, is the Result Channel itself (an
`asyncio.Queue`) — and that name is not among the queue's methods, so the
matched entry is never enqueued (the call raises `AttributeError` instead
of a non-blocking `put_nowait`). -/
theorem c4_matched_item_triggers_db_call_not_enqueue :
    (process_item (fun s => s) [wPattern] [] { text := "alert", fields := {} }).emit =
      some (mkRssItem "alert" {}, [wPM]) ∧
    (process_item (fun s => s) [wPattern] [] { text := "zzz", fields := {} }).emit = none ∧
    process_item_db_method ∉ asyncio_queue_methods :=
  ⟨rfl, rfl, by decide⟩

theorem find?_append_fresh (row : RssItem) :
    ∀ l : List RssItem, (l.any fun x => x.sha256 == row.sha256) = false →
      (l ++ [row]).find? (fun x => x.sha256 == row.sha256) = some row := by
  intro l
  induction l with
  | nil => simp
  | cons x xs ih =>
    intro h
    rw [List.any_cons, Bool.or_eq_false_iff] at h
    rw [List.cons_append, List.find?_cons_of_neg _ (by simp [h.1])]
    exact ih h.2

theorem lookup_insert_fresh (db : DBState) (row : RssItem)
    (h : hasRssItem db row.sha256 = false) :
    lookup_rss_item (insert_rss_item_if_not_exists db row) row.sha256 = some row := by
  unfold insert_rss_item_if_not_exists
  rw [if_neg (by simp [h])]
  exact find?_append_fresh row db.rss_items h

/-- C7 counterexample: an item whose field map has no `category` key is
stored with the four-character string `None` in the category column —
`str(None)` — not with a null/absent value as the claim states. -/
theorem c7_counterexample :
    (mkRssItem "h" {}).category = some "None" ∧
    (mkRssItem "h" {}).category ≠ none ∧
    (mkRssItem "h" {}).title = none := by
  refine ⟨rfl, ?_, rfl⟩
  intro h
  exact Option.noConfusion h

/-- C7 amended: every non-category field resolves to its text value when
the field is present with a non-empty text, and to null when the field is
missing (an empty text also becomes null, by the `or None` coercion);
`category` always goes through `str(...)`, so a missing category is
stored as the string `None`, a single value as its text, and a sequence
as the bracketed Python list rendering; and a row written into a table
that does not yet hold its key reads back field-for-field. -/
theorem c7_field_resolution_and_roundtrip (hsh : String) (pi : ParsedItem)
    (db : DBState) :
    (pi.title = none → (mkRssItem hsh pi).title = none) ∧
    (∀ s, s ≠ "" → pi.title = some (some s) → (mkRssItem hsh pi).title = some s) ∧
    (pi.link = none → (mkRssItem hsh pi).link = none) ∧
    (∀ s, s ≠ "" → pi.link = some (some s) → (mkRssItem hsh pi).link = some s) ∧
    (pi.description = none → (mkRssItem hsh pi).description = none) ∧
    (∀ s, s ≠ "" → pi.description = some (some s) →
      (mkRssItem hsh pi).description = some s) ∧
    (pi.author = none → (mkRssItem hsh pi).author = none) ∧
    (∀ s, s ≠ "" → pi.author = some (some s) → (mkRssItem hsh pi).author = some s) ∧
    (pi.comments = none → (mkRssItem hsh pi).comments = none) ∧
    (∀ s, s ≠ "" → pi.comments = some (some s) → (mkRssItem hsh pi).comments = some s) ∧
    (pi.enclosure = none → (mkRssItem hsh pi).enclosure = none) ∧
    (∀ s, s ≠ "" → pi.enclosure = some (some s) →
      (mkRssItem hsh pi).enclosure = some s) ∧
    (pi.guid = none → (mkRssItem hsh pi).guid = none) ∧
    (∀ s, s ≠ "" → pi.guid = some (some s) → (mkRssItem hsh pi).guid = some s) ∧
    (pi.pubDate = none → (mkRssItem hsh pi).pub_date = none) ∧
    (∀ s, s ≠ "" → pi.pubDate = some (some s) → (mkRssItem hsh pi).pub_date = some s) ∧
    (pi.source = none → (mkRssItem hsh pi).source = none) ∧
    (∀ s, s ≠ "" → pi.source = some (some s) → (mkRssItem hsh pi).source = some s) ∧
    (pi.category = none → (mkRssItem hsh pi).category = some "None") ∧
    (∀ s, s ≠ "" → pi.category = some (CategoryVal.single (some s)) →
      (mkRssItem hsh pi).category = some s) ∧
    (∀ e es, pi.category = some (CategoryVal.multi (e :: es)) →
      (mkRssItem hsh pi).category =
        some ("[" ++ String.intercalate ", " ((e :: es).map pyReprOptStr) ++ "]")) ∧
    (hasRssItem db hsh = false →
      lookup_rss_item (insert_rss_item_if_not_exists db (mkRssItem hsh pi)) hsh =
        some (mkRssItem hsh pi)) := by
  refine ⟨fun h => by simp [mkRssItem, getDollarOrNone, h],
    fun s hs h => by simp [mkRssItem, getDollarOrNone, h, hs],
    fun h => by simp [mkRssItem, getDollarOrNone, h],
    fun s hs h => by simp [mkRssItem, getDollarOrNone, h, hs],
    fun h => by simp [mkRssItem, getDollarOrNone, h],
    fun s hs h => by simp [mkRssItem, getDollarOrNone, h, hs],
    fun h => by simp [mkRssItem, getDollarOrNone, h],
    fun s hs h => by simp [mkRssItem, getDollarOrNone, h, hs],
    fun h => by simp [mkRssItem, getDollarOrNone, h],
    fun s hs h => by simp [mkRssItem, getDollarOrNone, h, hs],
    fun h => by simp [mkRssItem, getDollarOrNone, h],
    fun s hs h => by simp [mkRssItem, getDollarOrNone, h, hs],
    fun h => by simp [mkRssItem, getDollarOrNone, h],
    fun s hs h => by simp [mkRssItem, getDollarOrNone, h, hs],
    fun h => by simp [mkRssItem, getDollarOrNone, h],
    fun s hs h => by simp [mkRssItem, getDollarOrNone, h, hs],
    fun h => by simp [mkRssItem, getDollarOrNone, h],
    fun s hs h => by simp [mkRssItem, getDollarOrNone, h, hs],
    fun h => by simp [mkRssItem, parse_item_category, pyStrCategory, h],
    fun s hs h => by simp [mkRssItem, parse_item_category, pyStrCategory, h, hs],
    fun e es h => by simp [mkRssItem, parse_item_category, pyStrCategory, h],
    fun h => lookup_insert_fresh db (mkRssItem hsh pi) h⟩

/-- Witness for C7 at `wFields`: the title resolves, the missing link is
null, the missing category is the string `None`, and the row reads back
from a fresh table. -/
theorem c7_witness :
    (mkRssItem "h" wFields).title = some "T" ∧
    (mkRssItem "h" wFields).link = none ∧
    (mkRssItem "h" wFields).category = some "None" ∧
    lookup_rss_item (insert_rss_item_if_not_exists emptyDB (mkRssItem "h" wFields)) "h" =
      some (mkRssItem "h" wFields) := by
  obtain ⟨tN, tS, lN, lS, dN, dS, aN, aS, cmN, cmS, eN, eS, gN, gS, pN, pS, sN, sS,
    catN, catS, catL, rb⟩ := c7_field_resolution_and_roundtrip "h" wFields emptyDB
  exact ⟨tS "T" (by decide) rfl, lN rfl, catN rfl, rb rfl⟩

/-- C8: constructed as in `main` (no explicit `patterns` argument), all
scrapers alias the single mutable default list, so after startup with two
URLs and one configured pattern each poller observes that pattern twice —
one copy appended per poller — not the configured sequence once. -/
theorem c8_pollers_share_and_duplicate_the_pattern_list :
    scraper_patterns_view ["u1", "u2"] ["alert"] 0 = ["alert", "alert"] ∧
    scraper_patterns_view ["u1", "u2"] ["alert"] 1 =
      scraper_patterns_view ["u1", "u2"] ["alert"] 0 ∧
    scraper_patterns_view ["u1", "u2"] ["alert"] 0 ≠ ["alert"] := by
  exact ⟨rfl, rfl, by decide⟩

/-- C10: when the configuration file cannot be loaded, `main` prints the
error message and returns 1 before creating the database, the consumer
task or any poller task — but the `if name == main` guard discards that
return value and never calls `sys.exit`, so the process exit status is 0,
not non-zero. -/
theorem c10_config_failure_prints_but_exits_zero :
    (main_run false).printedConfigError = true ∧
    (main_run false).returnValue = some 1 ∧
    (main_run false).consumerStarted = false ∧
    (main_run false).pollersStarted = false ∧
    script_exit_code false = 0 := by
  exact ⟨rfl, rfl, rfl, rfl, rfl⟩
